import Mathlib

/-!
Shallow embedding of the `claude_monitor.insights` package: the JSONL
log-ingestion engine (`base.py`) and the analyzers referenced by the
specification (`anomaly_detector.py`, `cache_analyzer.py`,
`roi_analyzer.py`, `predictor.py`).

Modelling conventions:
* Python dicts keyed by strings become association lists kept in
  insertion order; Python sets of strings become lists queried only by
  membership.
* Python floats become exact rationals; `int(x)` becomes truncation
  toward zero.
* A parsed JSONL entry becomes a structure holding exactly the fields
  the code reads; a key that may be absent is an `Option`.
* The pricing collaborator (`PricingCalculator.calculate_cost`) is an
  explicit function parameter, as the spec treats it as external.
-/

namespace ClaudeMonitor

/-- Python truthiness of an optional string value: `None` and the empty
string are falsy. -/
def strTruthy : Option String → Option String
  | none => none
  | some s => if s = "" then none else some s

/-- Python `str.lower()`; `String.toLower` itself is built on an
irreducible auxiliary, so the character list is mapped directly. -/
def pyLower (s : String) : String := String.mk (s.data.map Char.toLower)

/-- Python substring containment `needle in hay`. -/
def strContains (hay needle : String) : Bool :=
  let h := hay.toList
  let n := needle.toList
  (List.range (h.length + 1)).any (fun i => n.isPrefixOf (h.drop i))

/-- `defaultdict(int)` increment: bump the count stored under `k`,
appending a fresh binding (insertion order) when `k` is new. -/
def incrKey : List (String × Nat) → String → List (String × Nat)
  | [], k => [(k, 1)]
  | (k0, v) :: rest, k =>
    if k0 = k then (k0, v + 1) :: rest else (k0, v) :: incrKey rest k

/-- Python `d.get(k, 0)` on a string-keyed dict of ints. -/
def dictGetNat : List (String × Nat) → String → Nat
  | [], _ => 0
  | (k0, v) :: rest, k => if k0 = k then v else dictGetNat rest k

/-- Python `d.get(k, 0)` on a string-keyed dict of floats. -/
def dictGetQ : List (String × ℚ) → String → ℚ
  | [], _ => 0
  | (k0, v) :: rest, k => if k0 = k then v else dictGetQ rest k

/-- Python `int(x)`: truncation toward zero. -/
def pyInt (q : ℚ) : ℤ :=
  if 0 ≤ q then ⌊q⌋ else ⌈q⌉

/-- Fixed-point decimal rendering used by the f-string formats
(`:.2f` etc.); exact-rational stand-in for float formatting. -/
def formatFixed (q : ℚ) (decimals : Nat) : String :=
  let scaled : ℤ := round (q * ((10 : ℚ) ^ decimals))
  let sign := if scaled < 0 then "-" else ""
  let n := scaled.natAbs
  let intPart := n / 10 ^ decimals
  let fracPart := n % 10 ^ decimals
  let fracStr := toString fracPart
  let fracStr := String.mk (List.replicate (decimals - fracStr.length) '0') ++ fracStr
  if decimals = 0 then sign ++ toString intPart
  else sign ++ toString intPart ++ "." ++ fracStr

/-- `format_tokens` from `base.py`: token count with K/M suffix. -/
def format_tokens (n : Nat) : String :=
  if 1000000 ≤ n then formatFixed ((n : ℚ) / 1000000) 2 ++ "M"
  else if 1000 ≤ n then formatFixed ((n : ℚ) / 1000) 1 ++ "K"
  else toString n

/-- `format_cost` from `base.py`: cost in USD. -/
def format_cost (cost : ℚ) : String :=
  if 1 ≤ cost then "$" ++ formatFixed cost 2
  else "$" ++ formatFixed cost 4

/-- `pathlib.Path(p).name` for the posix paths appearing in the logs:
the last nonempty path component. -/
def pathName (p : String) : String :=
  ((p.splitOn "/").filter (fun s => s ≠ "")).getLastD ""

/-! ## The parsed-entry model (fields read by `base.py`) -/

/-- The `usage` sub-object of a message. -/
structure Usage where
  input_tokens : Option Nat
  output_tokens : Option Nat
  cache_read_input_tokens : Option Nat
  cache_creation_input_tokens : Option Nat
deriving DecidableEq

/-- Empty-dict default for `message.get('usage', \x7b\x7d)`. -/
def usage0 : Usage := ⟨none, none, none, none⟩

/-- The `input` sub-object of a `tool_use` content item. -/
structure ToolInput where
  skill : Option String
  file_path : Option String
  path : Option String
deriving DecidableEq

/-- Empty-dict default for `item.get('input', \x7b\x7d)`. -/
def toolInput0 : ToolInput := ⟨none, none, none⟩

/-- One element of a list-shaped `content`; the code checks
`isinstance(item, dict)` and then reads `type`, `name`, `input`,
`text`. -/
inductive ContentItem where
  | dict (type : Option String) (name : Option String)
         (input : Option ToolInput) (text : Option String)
  | nondict
deriving DecidableEq

/-- A message `content` value: a plain string, a list of items, or some
other JSON shape. -/
inductive MsgContent where
  | str (s : String)
  | list (items : List ContentItem)
  | other
deriving DecidableEq

/-- The `message` sub-object of an entry. -/
structure Message where
  id : Option String
  usage : Option Usage
  model : Option String
  content : Option MsgContent
deriving DecidableEq

/-- One successfully parsed JSONL line. -/
structure Entry where
  timestamp : Option String
  type : Option String
  message_id : Option String
  requestId : Option String
  request_id : Option String
  message : Option Message
deriving DecidableEq

/-! ## SessionData (`base.py`) -/

/-- Container for processed session data; mirrors `SessionData.__init__`
field for field (dicts as insertion-ordered association lists). -/
structure SessionData where
  session_id : String
  project : String
  is_agent : Bool
  input_tokens : Nat
  output_tokens : Nat
  cache_read : Nat
  cache_create : Nat
  cost : ℚ
  tool_calls : List (String × Nat)
  file_ops : List (String × Nat)
  mcp_calls : List (String × Nat)
  skill_calls : List (String × Nat)
  timestamps : List String
  first_msg : Option String
  entries : List Entry
deriving DecidableEq

/-- `SessionData(session_id, project)` constructor. -/
def SessionData.init (session_id project : String) : SessionData :=
  { session_id := session_id
    project := project
    is_agent := session_id.startsWith "agent-"
    input_tokens := 0
    output_tokens := 0
    cache_read := 0
    cache_create := 0
    cost := 0
    tool_calls := []
    file_ops := []
    mcp_calls := []
    skill_calls := []
    timestamps := []
    first_msg := none
    entries := [] }

/-- The `total_tokens` property: always derived from the four counters,
never stored. -/
def SessionData.total_tokens (s : SessionData) : Nat :=
  s.input_tokens + s.output_tokens + s.cache_read + s.cache_create

/-! ## LogLoader (`base.py`) -/

/-- `LogLoader._create_unique_hash`: the truthy-resolved message id
(`entry.get('message_id') or message.get('id')`). -/
def message_id_of (entry : Entry) : Option String :=
  strTruthy
    (match strTruthy entry.message_id with
     | some s => some s
     | none =>
       match entry.message with
       | some m => m.id
       | none => none)

/-- `LogLoader._create_unique_hash`: the truthy-resolved request id
(`entry.get('requestId') or entry.get('request_id')`). -/
def request_id_of (entry : Entry) : Option String :=
  strTruthy
    (match strTruthy entry.requestId with
     | some s => some s
     | none => entry.request_id)

/-- `LogLoader._create_unique_hash`: composite dedup key, present only
when both ids are truthy. -/
def _create_unique_hash (entry : Entry) : Option String :=
  match message_id_of entry, request_id_of entry with
  | some mid, some rid => some (mid ++ ":" ++ rid)
  | _, _ => none

/-- `LogLoader._extract_usage`: fold token counts and pricing-derived
cost from an entry into the session. -/
def _extract_usage (calculate_cost : String → Nat → Nat → Nat → Nat → ℚ)
    (entry : Entry) (session : SessionData) : SessionData :=
  match entry.message with
  | none => session
  | some message =>
    let usage := message.usage.getD usage0
    let input_tokens := usage.input_tokens.getD 0
    let output_tokens := usage.output_tokens.getD 0
    let cache_read := usage.cache_read_input_tokens.getD 0
    let cache_create := usage.cache_creation_input_tokens.getD 0
    let model := message.model.getD "claude-3-5-sonnet"
    let cost := calculate_cost model input_tokens output_tokens cache_create cache_read
    { session with
      output_tokens := session.output_tokens + output_tokens
      input_tokens := session.input_tokens + input_tokens
      cache_read := session.cache_read + cache_read
      cache_create := session.cache_create + cache_create
      cost := session.cost + cost }

/-- Body of the per-item loop of `LogLoader._extract_tool_calls`. -/
def processToolItem (session : SessionData) (item : ContentItem) : SessionData :=
  match item with
  | .nondict => session
  | .dict ty name input _text =>
    if ty ≠ some "tool_use" then session
    else
      let tool_name := name.getD "unknown"
      let session := { session with tool_calls := incrKey session.tool_calls tool_name }
      let session :=
        if tool_name.startsWith "mcp__" then
          { session with mcp_calls := incrKey session.mcp_calls tool_name }
        else session
      let session :=
        if tool_name = "Skill" then
          let skill_input := input.getD toolInput0
          let skill_name := skill_input.skill.getD "unknown"
          { session with skill_calls := incrKey session.skill_calls skill_name }
        else session
      let inp := input.getD toolInput0
      let file_path := inp.file_path.getD (inp.path.getD "")
      if file_path ≠ "" then
        { session with file_ops := incrKey session.file_ops file_path }
      else session

/-- `LogLoader._extract_tool_calls`. -/
def _extract_tool_calls (entry : Entry) (session : SessionData) : SessionData :=
  if entry.type ≠ some "assistant" then session
  else
    let content :=
      match entry.message with
      | none => MsgContent.list []
      | some m => m.content.getD (MsgContent.list [])
    match content with
    | .list items => items.foldl processToolItem session
    | _ => session

/-- First `text`-typed dict item of a list-shaped content, truncated to
200 characters (the loop body of `_extract_first_message`). -/
def firstTextOf : List ContentItem → Option String
  | [] => none
  | .dict ty _ _ text :: rest =>
    if ty = some "text" then some ((text.getD "").take 200)
    else firstTextOf rest
  | .nondict :: rest => firstTextOf rest

/-- `LogLoader._extract_first_message`. -/
def _extract_first_message (entry : Entry) (session : SessionData) : SessionData :=
  if session.first_msg ≠ none then session
  else if entry.type ≠ some "user" then session
  else
    let content :=
      match entry.message with
      | none => MsgContent.str ""
      | some m => m.content.getD (MsgContent.str "")
    match content with
    | .list items =>
      (match firstTextOf items with
       | some t => { session with first_msg := some t }
       | none => session)
    | .str s => { session with first_msg := some (s.take 200) }
    | .other => session

/-- Date filter of `_process_session_file`: substring containment of any
target date in the raw timestamp. -/
def dateMatch (target_dates : List String) (entry : Entry) : Bool :=
  target_dates.any (fun d => strContains (entry.timestamp.getD "") d)

/-- The optional `entry_filter` predicate; absent means accept. -/
def acceptEntry (entry_filter : Option (Entry → Bool)) (entry : Entry) : Bool :=
  match entry_filter with
  | none => true
  | some f => f entry

/-- Fold one surviving entry into the session: timestamp and raw entry
are appended, then usage, tool calls and first message are extracted
(in source order). -/
def foldEntry (calculate_cost : String → Nat → Nat → Nat → Nat → ℚ)
    (entry : Entry) (session : SessionData) : SessionData :=
  let ts := entry.timestamp.getD ""
  let session := { session with
    timestamps := session.timestamps ++ [ts]
    entries := session.entries ++ [entry] }
  _extract_first_message entry
    (_extract_tool_calls entry
      (_extract_usage calculate_cost entry session))

/-- Loop state of `_process_session_file`: the session under
construction, the `has_target_date` flag, and the loader-owned
`_processed_hashes` set threaded through the whole `iter_sessions`
call. -/
structure FileState where
  session : SessionData
  has_target_date : Bool
  seen : List String
deriving DecidableEq

/-- One iteration of the line loop of `_process_session_file`: date
filter, optional predicate, dedup check, then the entry fold. -/
def processLine (calculate_cost : String → Nat → Nat → Nat → Nat → ℚ)
    (target_dates : List String) (entry_filter : Option (Entry → Bool))
    (st : FileState) (entry : Entry) : FileState :=
  if ¬ dateMatch target_dates entry then st
  else if ¬ acceptEntry entry_filter entry then st
  else
    match _create_unique_hash entry with
    | some h =>
      if h ∈ st.seen then st
      else
        { session := foldEntry calculate_cost entry st.session
          has_target_date := true
          seen := h :: st.seen }
    | none =>
      { session := foldEntry calculate_cost entry st.session
        has_target_date := true
        seen := st.seen }

/-- `LogLoader._process_session_file` on the parsed lines of one file
(lines failing `json.loads` are already absent): returns the session
when at least one entry survived, plus the updated dedup set. -/
def _process_session_file (calculate_cost : String → Nat → Nat → Nat → Nat → ℚ)
    (target_dates : List String) (entry_filter : Option (Entry → Bool))
    (jsonl : List Entry) (session_id project : String)
    (seen : List String) : Option SessionData × List String :=
  let st := jsonl.foldl (processLine calculate_cost target_dates entry_filter)
    ⟨SessionData.init session_id project, false, seen⟩
  (if st.has_target_date then some st.session else none, st.seen)

/-- File loop of `iter_sessions` inside one project directory: a
produced session is yielded only when `output_tokens > 0`. -/
def iterFiles (calculate_cost : String → Nat → Nat → Nat → Nat → ℚ)
    (target_dates : List String) (entry_filter : Option (Entry → Bool)) :
    List (String × List Entry) → String → List String →
    List SessionData × List String
  | [], _, seen => ([], seen)
  | (session_id, jsonl) :: rest, project, seen =>
    let r := _process_session_file calculate_cost target_dates entry_filter
      jsonl session_id project seen
    let rec' := iterFiles calculate_cost target_dates entry_filter rest project r.2
    match r.1 with
    | some s => (if 0 < s.output_tokens then s :: rec'.1 else rec'.1, rec'.2)
    | none => rec'

/-- Project-directory loop of `iter_sessions`. -/
def iterDirs (calculate_cost : String → Nat → Nat → Nat → Nat → ℚ)
    (target_dates : List String) (entry_filter : Option (Entry → Bool)) :
    List (String × List (String × List Entry)) → List String →
    List SessionData × List String
  | [], seen => ([], seen)
  | (project, files) :: rest, seen =>
    let r1 := iterFiles calculate_cost target_dates entry_filter files project seen
    let r2 := iterDirs calculate_cost target_dates entry_filter rest r1.2
    (r1.1 ++ r2.1, r2.2)

/-- `LogLoader.iter_sessions`: the dedup set is reset at the start of
each call, then threaded across every file of every project
directory. -/
def iter_sessions (calculate_cost : String → Nat → Nat → Nat → Nat → ℚ)
    (dirs : List (String × List (String × List Entry)))
    (target_dates : List String) (entry_filter : Option (Entry → Bool)) :
    List SessionData :=
  (iterDirs calculate_cost target_dates entry_filter dirs []).1

/-- Declarative companion of the line loop: the sublist of entries that
pass the date filter, the predicate, and the dedup check. -/
def survivors (target_dates : List String) (entry_filter : Option (Entry → Bool))
    (seen : List String) : List Entry → List Entry
  | [] => []
  | e :: es =>
    if ¬ dateMatch target_dates e then survivors target_dates entry_filter seen es
    else if ¬ acceptEntry entry_filter e then survivors target_dates entry_filter seen es
    else
      match _create_unique_hash e with
      | some h =>
        if h ∈ seen then survivors target_dates entry_filter seen es
        else e :: survivors target_dates entry_filter (h :: seen) es
      | none => e :: survivors target_dates entry_filter seen es

/-- Output tokens contributed by a single entry (`usage.output_tokens`,
0 when absent). -/
def entryOutput (e : Entry) : Nat :=
  match e.message with
  | none => 0
  | some m => (m.usage.getD usage0).output_tokens.getD 0

/-! ## AnomalyDetector (`anomaly_detector.py`) -/

/-- Anomaly thresholds from `anomaly_detector.py`. -/
def LOOP_THRESHOLD_TOOL : Nat := 20

/-- Same file accessed more than this many times. -/
def LOOP_THRESHOLD_FILE : Nat := 10

/-- SQL queries per session threshold. -/
def LOOP_THRESHOLD_SQL : Nat := 10

/-- Session output-token spike threshold. -/
def SPIKE_THRESHOLD_TOKENS : Nat := 500000

/-- Session cost spike threshold in USD. -/
def SPIKE_THRESHOLD_COST : ℚ := 5

/-- A heterogeneous value stored in an anomaly detail mapping. -/
inductive DetailVal where
  | str (s : String)
  | nat (n : Nat)
  | rat (q : ℚ)
deriving DecidableEq

/-- The `Anomaly` dataclass. -/
structure Anomaly where
  severity : String
  type : String
  session_id : String
  project : String
  description : String
  count : Nat
  tokens : Nat
  cost : ℚ
  details : List (String × DetailVal)
deriving DecidableEq

/-- The tool-loop anomaly record built for one (tool, count) pair. -/
def toolLoopRec (s : SessionData) (p : String × Nat) : Anomaly :=
  { severity := if LOOP_THRESHOLD_TOOL * 3 < p.2 then "HIGH" else "MEDIUM"
    type := "tool_loop"
    session_id := s.session_id
    project := s.project
    description := p.1 ++ " called " ++ toString p.2 ++ "x in single session"
    count := p.2
    tokens := s.output_tokens
    cost := s.cost
    details := [("tool", .str p.1), ("threshold", .nat LOOP_THRESHOLD_TOOL)] }

/-- Tool-loop rule of `_detect_session_anomalies`. -/
def toolLoopAnomalies (s : SessionData) : List Anomaly :=
  s.tool_calls.filterMap (fun p =>
    if LOOP_THRESHOLD_TOOL < p.2 then some (toolLoopRec s p) else none)

/-- The file-loop anomaly record built for one (path, count) pair. -/
def fileLoopRec (s : SessionData) (p : String × Nat) : Anomaly :=
  { severity := if LOOP_THRESHOLD_FILE * 2 < p.2 then "MEDIUM" else "LOW"
    type := "file_loop"
    session_id := s.session_id
    project := s.project
    description := "File \x27" ++ pathName p.1 ++ "\x27 accessed " ++ toString p.2 ++ "x"
    count := p.2
    tokens := s.output_tokens
    cost := s.cost
    details := [("file", .str p.1), ("threshold", .nat LOOP_THRESHOLD_FILE)] }

/-- File-access-loop rule of `_detect_session_anomalies`. -/
def fileLoopAnomalies (s : SessionData) : List Anomaly :=
  s.file_ops.filterMap (fun p =>
    if LOOP_THRESHOLD_FILE < p.2 then some (fileLoopRec s p) else none)

/-- SQL query count: MCP calls whose lowercased name contains "sql",
"query" or "execute". -/
def sqlCallCount (s : SessionData) : Nat :=
  ((s.mcp_calls.filter (fun p =>
      strContains (pyLower p.1) "sql" || strContains (pyLower p.1) "query" ||
      strContains (pyLower p.1) "execute")).map (fun p => p.2)).sum

/-- The SQL-loop anomaly record. -/
def sqlLoopRec (s : SessionData) : Anomaly :=
  { severity := if LOOP_THRESHOLD_SQL * 5 < sqlCallCount s then "HIGH" else "MEDIUM"
    type := "sql_loop"
    session_id := s.session_id
    project := s.project
    description := toString (sqlCallCount s) ++ " SQL queries in single session"
    count := sqlCallCount s
    tokens := s.output_tokens
    cost := s.cost
    details := [("query_count", .nat (sqlCallCount s)), ("threshold", .nat LOOP_THRESHOLD_SQL)] }

/-- SQL-loop rule of `_detect_session_anomalies`. -/
def sqlLoopAnomalies (s : SessionData) : List Anomaly :=
  if LOOP_THRESHOLD_SQL < sqlCallCount s then [sqlLoopRec s] else []

/-- The token-spike anomaly record. -/
def tokenSpikeRec (s : SessionData) : Anomaly :=
  { severity := if SPIKE_THRESHOLD_TOKENS * 2 < s.output_tokens then "HIGH" else "MEDIUM"
    type := "token_spike"
    session_id := s.session_id
    project := s.project
    description := "High token usage: " ++ format_tokens s.output_tokens ++ " output"
    count := 1
    tokens := s.output_tokens
    cost := s.cost
    details := [("output_tokens", .nat s.output_tokens),
                ("threshold", .nat SPIKE_THRESHOLD_TOKENS)] }

/-- Token-spike rule of `_detect_session_anomalies`. -/
def tokenSpikeAnomalies (s : SessionData) : List Anomaly :=
  if SPIKE_THRESHOLD_TOKENS < s.output_tokens then [tokenSpikeRec s] else []

/-- The cost-spike anomaly record. -/
def costSpikeRec (s : SessionData) : Anomaly :=
  { severity := if SPIKE_THRESHOLD_COST * 2 < s.cost then "HIGH" else "MEDIUM"
    type := "cost_spike"
    session_id := s.session_id
    project := s.project
    description := "High session cost: " ++ format_cost s.cost
    count := 1
    tokens := s.output_tokens
    cost := s.cost
    details := [("cost", .rat s.cost), ("threshold", .rat SPIKE_THRESHOLD_COST)] }

/-- Cost-spike rule: triggered by cost, suppressed when a HIGH
token_spike is already in the anomaly list built so far. -/
def costSpikeAnomalies (s : SessionData) (anomalies : List Anomaly) : List Anomaly :=
  if SPIKE_THRESHOLD_COST < s.cost then
    if ¬ anomalies.any (fun a => a.type == "token_spike" && a.severity == "HIGH") then
      [costSpikeRec s]
    else []
  else []

/-- The agent-spawn anomaly record. -/
def agentSpawnRec (s : SessionData) : Anomaly :=
  { severity := if 20 < dictGetNat s.tool_calls "Task" then "MEDIUM" else "LOW"
    type := "agent_spawn_loop"
    session_id := s.session_id
    project := s.project
    description := toString (dictGetNat s.tool_calls "Task")
      ++ " sub-agents spawned in single session"
    count := dictGetNat s.tool_calls "Task"
    tokens := s.output_tokens
    cost := s.cost
    details := [("agent_count", .nat (dictGetNat s.tool_calls "Task"))] }

/-- Agent-spawn rule of `_detect_session_anomalies`. -/
def agentSpawnAnomalies (s : SessionData) : List Anomaly :=
  if 10 < dictGetNat s.tool_calls "Task" then [agentSpawnRec s] else []

/-- `AnomalyDetector._detect_session_anomalies`: the rules append in
source order, the cost-spike rule inspecting the list built before
it. -/
def _detect_session_anomalies (s : SessionData) : List Anomaly :=
  let anomalies :=
    toolLoopAnomalies s ++ fileLoopAnomalies s ++ sqlLoopAnomalies s ++ tokenSpikeAnomalies s
  let anomalies := anomalies ++ costSpikeAnomalies s anomalies
  anomalies ++ agentSpawnAnomalies s

/-! ## CacheAnalyzer (`cache_analyzer.py`) -/

/-- The `CacheStats` dataclass counters. -/
structure CacheStats where
  cache_read : Nat
  cache_create : Nat
  input_tokens : Nat
  output_tokens : Nat
  sessions : Nat
  cost : ℚ
deriving DecidableEq

/-- `CacheStats.total_input_context`. -/
def CacheStats.total_input_context (c : CacheStats) : Nat :=
  c.cache_read + c.cache_create + c.input_tokens

/-- `CacheStats.cache_hit_rate`. -/
def CacheStats.cache_hit_rate (c : CacheStats) : ℚ :=
  if 0 < c.total_input_context then
    (c.cache_read : ℚ) / (c.total_input_context : ℚ) * 100
  else 0

/-- `CacheStats.cache_efficiency_score`. -/
def CacheStats.cache_efficiency_score (c : CacheStats) : ℚ :=
  if c.total_input_context = 0 then 0
  else
    let rr : ℚ := (c.cache_read : ℚ) / (c.total_input_context : ℚ)
    let ce : ℚ :=
      if 0 < c.cache_create then
        min 1 ((c.cache_read : ℚ) / ((c.cache_create : ℚ) * 5))
      else 1
    min 100 (rr * 80 + ce * 20)

/-- `CacheStats.estimated_cache_savings` with the fixed per-million
rates (input 3.00, cache read 0.30). -/
def CacheStats.estimated_cache_savings (c : CacheStats) : ℚ :=
  (c.cache_read : ℚ) / 1000000 * 3 - (c.cache_read : ℚ) / 1000000 * (3 / 10)

/-- `CacheStats.wasted_cache_tokens`. -/
def CacheStats.wasted_cache_tokens (c : CacheStats) : Nat :=
  if c.cache_read < c.cache_create then c.cache_create - c.cache_read else 0

/-! ## ROIAnalyzer (`roi_analyzer.py`) -/

/-- `DOMAIN_PATTERNS`, an insertion-ordered dict in the source; the
declared order is the tested order. -/
def DOMAIN_PATTERNS : List (String × List String) :=
  [("coding", ["edit", "write", "bash", "grep", "glob", "read"]),
   ("research", ["websearch", "webfetch"]),
   ("communication", ["mcp__outlook", "email"]),
   ("crm", ["mcp__pipedrive"]),
   ("meetings", ["mcp__ask-maia", "maia"]),
   ("automation", ["n8n", "workflow"]),
   ("data", ["sql", "database", "supabase"]),
   ("agents", ["task", "agent"])]

/-- The nested pattern loop of `ROIAnalyzer._get_domain`: first domain
with a matching pattern wins. -/
def findDomain (name_lower : String) : List (String × List String) → String
  | [] => "other"
  | (domain, patterns) :: rest =>
    if patterns.any (fun pattern => strContains name_lower pattern) then domain
    else findDomain name_lower rest

/-- `ROIAnalyzer._get_domain`. -/
def _get_domain (tool_name : String) : String :=
  findDomain (pyLower tool_name) DOMAIN_PATTERNS

/-- The `domain_pcts` dict built by `ROIAnalyzer._analyze_value` from
the per-domain output-token totals (name, output_tokens). -/
def domainPcts (domains : List (String × Nat)) : List (String × ℚ) :=
  let total_tokens : Nat := (domains.map (fun d => d.2)).sum
  domains.map (fun d =>
    (d.1, if 0 < total_tokens then (d.2 : ℚ) / (total_tokens : ℚ) * 100 else 0))

/-- `ROIAnalyzer._calculate_balance_score`. -/
def _calculate_balance_score (domain_pcts : List (String × ℚ)) : ℚ :=
  let high_value := ((["coding", "automation", "data"].map (dictGetQ domain_pcts)).sum : ℚ)
  let support := ((["research", "communication", "meetings"].map (dictGetQ domain_pcts)).sum : ℚ)
  let score : ℚ := 100
  let score := if high_value < 30 then score - 20 else score
  let score := if 80 < high_value then score - 10 else score
  let score := if 50 < support then score - 15 else score
  max 0 (min 100 score)

/-! ## UsagePredictor (`predictor.py`) -/

/-- The `DailyStats` dataclass (one bucket per calendar day). -/
structure DailyStats where
  date : String
  sessions : Nat
  output_tokens : Nat
  input_tokens : Nat
  cache_read : Nat
  cost : ℚ
deriving DecidableEq

/-- Result dict of `UsagePredictor._calculate_trends`. -/
structure Trends where
  direction : String
  sessions_change_pct : ℚ
  tokens_change_pct : ℚ
  cost_change_pct : ℚ
deriving DecidableEq

/-- `UsagePredictor._calculate_trends`: first half vs second half of the
daily history (ascending by date). -/
def _calculate_trends (history : List DailyStats) : Trends :=
  if history.length < 7 then ⟨"insufficient_data", 0, 0, 0⟩
  else
    let mid := history.length / 2
    let first_half := history.take mid
    let second_half := history.drop mid
    let first_sessions : ℚ :=
      ((first_half.map (fun d => (d.sessions : ℚ))).sum) / (first_half.length : ℚ)
    let second_sessions : ℚ :=
      ((second_half.map (fun d => (d.sessions : ℚ))).sum) / (second_half.length : ℚ)
    let first_tokens : ℚ :=
      ((first_half.map (fun d => (d.output_tokens : ℚ))).sum) / (first_half.length : ℚ)
    let second_tokens : ℚ :=
      ((second_half.map (fun d => (d.output_tokens : ℚ))).sum) / (second_half.length : ℚ)
    let first_cost : ℚ := ((first_half.map (fun d => d.cost)).sum) / (first_half.length : ℚ)
    let second_cost : ℚ := ((second_half.map (fun d => d.cost)).sum) / (second_half.length : ℚ)
    let sessions_change :=
      if 0 < first_sessions then (second_sessions - first_sessions) / first_sessions * 100 else 0
    let tokens_change :=
      if 0 < first_tokens then (second_tokens - first_tokens) / first_tokens * 100 else 0
    let cost_change :=
      if 0 < first_cost then (second_cost - first_cost) / first_cost * 100 else 0
    let direction :=
      if 10 < tokens_change then "increasing"
      else if tokens_change < -10 then "decreasing"
      else "stable"
    ⟨direction, sessions_change, tokens_change, cost_change⟩

/-- Result dict of `UsagePredictor._generate_forecasts` (`int()` applied
to sessions and tokens). -/
structure ForecastResult where
  sessions : ℤ
  output_tokens : ℤ
  cost : ℚ
  confidence : String
deriving DecidableEq

/-- `UsagePredictor._calculate_variance` (population variance). -/
def _calculate_variance (values : List ℚ) : ℚ :=
  if values.length < 2 then 0
  else
    let mean := values.sum / (values.length : ℚ)
    ((values.map (fun v => (v - mean) ^ 2)).sum) / (values.length : ℚ)

/-- `UsagePredictor._generate_forecasts`. The confidence branch compares
`cv = sqrt(variance)/avg` against 0.3 and 0.6; both sides are
nonnegative, so the comparisons are stated on squares to stay inside
the rationals. -/
def _generate_forecasts (history : List DailyStats) (trends : Trends)
    (forecast_days : Nat) : ForecastResult :=
  if history.length < 7 then ⟨0, 0, 0, "low"⟩
  else
    let recent := history.drop (history.length - 7)
    let weights : List ℚ := [1, 1, 2, 2, 3, 3, 4]
    let total_weight := (weights.take recent.length).sum
    let avg_sessions :=
      (((recent.zip weights).map (fun p => (p.1.sessions : ℚ) * p.2)).sum) / total_weight
    let avg_tokens :=
      (((recent.zip weights).map (fun p => (p.1.output_tokens : ℚ) * p.2)).sum) / total_weight
    let avg_cost :=
      (((recent.zip weights).map (fun p => p.1.cost * p.2)).sum) / total_weight
    let trend_factor : ℚ :=
      if trends.direction = "increasing" then
        1 + trends.tokens_change_pct / 100 * (1 / 2)
      else if trends.direction = "decreasing" then
        1 + trends.tokens_change_pct / 100 * (1 / 2)
      else 1
    let token_variance := _calculate_variance (recent.map (fun d => (d.output_tokens : ℚ)))
    let confidence :=
      if 0 < avg_tokens then
        if token_variance * 100 < 9 * avg_tokens ^ 2 then "high"
        else if token_variance * 100 < 36 * avg_tokens ^ 2 then "medium"
        else "low"
      else "low"
    ⟨pyInt (avg_sessions * (forecast_days : ℚ) * trend_factor),
     pyInt (avg_tokens * (forecast_days : ℚ) * trend_factor),
     avg_cost * (forecast_days : ℚ) * trend_factor,
     confidence⟩

/-- The weighted average the specification describes for the forecast:
fixed ascending weights `[1,1,2,2,3,3,4]` over the 7 most recent daily
buckets. -/
def specWeightedAvg (f : DailyStats → ℚ) (history : List DailyStats) : ℚ :=
  let recent := history.drop (history.length - 7)
  let weights : List ℚ := [1, 1, 2, 2, 3, 3, 4]
  (((recent.zip weights).map (fun p => f p.1 * p.2)).sum) / (weights.take recent.length).sum

/-- The trend factor exactly as the claim words it:
`1 + (tokens_change_pct/100 x 0.5)` for every direction. -/
def claimTrendFactor (t : Trends) : ℚ :=
  1 + t.tokens_change_pct / 100 * (1 / 2)

/-- The trend factor the code actually applies: the claimed formula for
the increasing and decreasing directions, and exactly 1 otherwise. -/
def codeTrendFactor (t : Trends) : ℚ :=
  if t.direction = "increasing" ∨ t.direction = "decreasing" then claimTrendFactor t else 1

/-! ## Concrete sample data used by witnesses and counterexamples -/

/-- A trivial pricing collaborator instance (the spec treats pricing as
an external pure function; the claims hold for every such function). -/
def cc0 : String → Nat → Nat → Nat → Nat → ℚ := fun _ _ _ _ _ => 0

/-- An assistant entry with message id "msg-1" and request id "req-1". -/
def e1dup : Entry :=
  ⟨some "2025-01-01T10:00:00Z", some "assistant", none, some "req-1", none,
   some ⟨some "msg-1", some ⟨some 3, some 5, none, none⟩, none, none⟩⟩

/-- A later entry carrying the same message id and request id but
different token counts. -/
def e2dup : Entry :=
  ⟨some "2025-01-01T10:00:05Z", some "assistant", none, some "req-1", none,
   some ⟨some "msg-1", some ⟨some 30, some 50, none, none⟩, none, none⟩⟩

/-- A session whose only tool was called 21 times. -/
def s21 : SessionData :=
  { SessionData.init "s" "p" with tool_calls := [("Bash", 21)] }

/-- A session whose only tool was called 61 times. -/
def s61 : SessionData :=
  { SessionData.init "s" "p" with tool_calls := [("Bash", 61)] }

/-- A session costing 6 dollars with no token spike. -/
def sessionC6 : SessionData :=
  { SessionData.init "s" "p" with cost := 6, output_tokens := 1 }

/-- CacheStats instance from the spec: read 800000, create 100000,
input 100000. -/
def c800 : CacheStats := ⟨800000, 100000, 100000, 0, 0, 0⟩

/-- CacheStats instance from the spec: create 300000, read 50000. -/
def c300 : CacheStats := ⟨50000, 300000, 0, 0, 0, 0⟩

/-- A 7-day history whose token change is +5 percent (direction
"stable") and whose daily cost is a constant 16. -/
def hist7 : List DailyStats :=
  [⟨"2025-09-29", 1, 100, 0, 0, 16⟩, ⟨"2025-09-30", 1, 100, 0, 0, 16⟩,
   ⟨"2025-10-01", 1, 100, 0, 0, 16⟩, ⟨"2025-10-02", 1, 105, 0, 0, 16⟩,
   ⟨"2025-10-03", 1, 105, 0, 0, 16⟩, ⟨"2025-10-04", 1, 105, 0, 0, 16⟩,
   ⟨"2025-10-05", 1, 105, 0, 0, 16⟩]

/-! ## Helper lemmas about the loader fold -/

theorem processToolItem_output (s : SessionData) (i : ContentItem) :
    (processToolItem s i).output_tokens = s.output_tokens := by
  cases i with
  | nondict => rfl
  | dict ty name input text =>
    simp only [processToolItem]
    split
    · rfl
    · split <;> split <;> split <;> rfl

theorem foldl_processToolItem_output (items : List ContentItem) (s : SessionData) :
    (items.foldl processToolItem s).output_tokens = s.output_tokens := by
  induction items generalizing s with
  | nil => rfl
  | cons i items ih => rw [List.foldl_cons, ih, processToolItem_output]

theorem extract_tool_calls_output (e : Entry) (s : SessionData) :
    (_extract_tool_calls e s).output_tokens = s.output_tokens := by
  unfold _extract_tool_calls
  split
  · rfl
  · dsimp only
    split
    · exact foldl_processToolItem_output _ _
    · rfl

theorem extract_first_message_output (e : Entry) (s : SessionData) :
    (_extract_first_message e s).output_tokens = s.output_tokens := by
  unfold _extract_first_message
  split
  · rfl
  · split
    · rfl
    · dsimp only
      split
      · split <;> rfl
      · rfl
      · rfl

theorem extract_usage_output (cc : String → Nat → Nat → Nat → Nat → ℚ)
    (e : Entry) (s : SessionData) :
    (_extract_usage cc e s).output_tokens = s.output_tokens + entryOutput e := by
  unfold _extract_usage entryOutput
  cases e.message <;> simp

theorem foldEntry_output (cc : String → Nat → Nat → Nat → Nat → ℚ)
    (e : Entry) (s : SessionData) :
    (foldEntry cc e s).output_tokens = s.output_tokens + entryOutput e := by
  unfold foldEntry
  rw [extract_first_message_output, extract_tool_calls_output, extract_usage_output]

theorem processLine_seen_mono (cc : String → Nat → Nat → Nat → Nat → ℚ)
    (tds : List String) (ef : Option (Entry → Bool)) (st : FileState) (e : Entry)
    (h : String) (hm : h ∈ st.seen) : h ∈ (processLine cc tds ef st e).seen := by
  unfold processLine
  split
  · exact hm
  · split
    · exact hm
    · split
      · split
        · exact hm
        · exact List.mem_cons_of_mem _ hm
      · exact hm

theorem foldl_processLine_seen_mono (cc : String → Nat → Nat → Nat → Nat → ℚ)
    (tds : List String) (ef : Option (Entry → Bool)) (es : List Entry)
    (st : FileState) (h : String) (hm : h ∈ st.seen) :
    h ∈ (es.foldl (processLine cc tds ef) st).seen := by
  induction es generalizing st with
  | nil => exact hm
  | cons e es ih =>
    rw [List.foldl_cons]
    exact ih _ (processLine_seen_mono cc tds ef st e h hm)

theorem processLine_dup (cc : String → Nat → Nat → Nat → Nat → ℚ)
    (tds : List String) (ef : Option (Entry → Bool)) (st : FileState) (e : Entry)
    (k : String) (hk : _create_unique_hash e = some k) (hmem : k ∈ st.seen) :
    processLine cc tds ef st e = st := by
  unfold processLine
  split
  · rfl
  · split
    · rfl
    · rw [hk]
      simp [hmem]

theorem processLine_pass_seen (cc : String → Nat → Nat → Nat → Nat → ℚ)
    (tds : List String) (ef : Option (Entry → Bool)) (st : FileState) (e : Entry)
    (k : String) (hk : _create_unique_hash e = some k)
    (hd : dateMatch tds e = true) (ha : acceptEntry ef e = true) :
    k ∈ (processLine cc tds ef st e).seen := by
  unfold processLine
  rw [hd, ha, hk]
  simp only [not_true_eq_false, if_false]
  split
  · assumption
  · exact List.mem_cons_self _ _

theorem foldl_processLine_spec (cc : String → Nat → Nat → Nat → Nat → ℚ)
    (tds : List String) (ef : Option (Entry → Bool)) :
    ∀ (es : List Entry) (s : SessionData) (b : Bool) (seen : List String),
    ((es.foldl (processLine cc tds ef) ⟨s, b, seen⟩).session.output_tokens
       = s.output_tokens + ((survivors tds ef seen es).map entryOutput).sum)
    ∧ ((es.foldl (processLine cc tds ef) ⟨s, b, seen⟩).has_target_date
       = (b || !(survivors tds ef seen es).isEmpty)) := by
  intro es
  induction es with
  | nil =>
    intro s b seen
    constructor <;> simp [survivors]
  | cons e es ih =>
    intro s b seen
    rw [List.foldl_cons]
    by_cases hd : dateMatch tds e
    · by_cases ha : acceptEntry ef e
      · cases hk : _create_unique_hash e with
        | some h =>
          by_cases hmem : h ∈ seen
          · have hstep : processLine cc tds ef ⟨s, b, seen⟩ e = ⟨s, b, seen⟩ :=
              processLine_dup cc tds ef ⟨s, b, seen⟩ e h hk hmem
            have hsurv : survivors tds ef seen (e :: es) = survivors tds ef seen es := by
              simp [survivors, hd, ha, hk, hmem]
            rw [hstep, hsurv]
            exact ih s b seen
          · have hstep : processLine cc tds ef ⟨s, b, seen⟩ e
                = ⟨foldEntry cc e s, true, h :: seen⟩ := by
              unfold processLine
              rw [hk]
              simp [hd, ha, hmem]
            have hsurv : survivors tds ef seen (e :: es)
                = e :: survivors tds ef (h :: seen) es := by
              simp [survivors, hd, ha, hk, hmem]
            rw [hstep, hsurv]
            obtain ⟨h1, h2⟩ := ih (foldEntry cc e s) true (h :: seen)
            constructor
            · rw [h1, foldEntry_output, List.map_cons, List.sum_cons]
              omega
            · rw [h2]
              simp
        | none =>
          have hstep : processLine cc tds ef ⟨s, b, seen⟩ e
              = ⟨foldEntry cc e s, true, seen⟩ := by
            unfold processLine
            rw [hk]
            simp [hd, ha]
          have hsurv : survivors tds ef seen (e :: es)
              = e :: survivors tds ef seen es := by
            simp [survivors, hd, ha, hk]
          rw [hstep, hsurv]
          obtain ⟨h1, h2⟩ := ih (foldEntry cc e s) true seen
          constructor
          · rw [h1, foldEntry_output, List.map_cons, List.sum_cons]
            omega
          · rw [h2]
            simp
      · have hstep : processLine cc tds ef ⟨s, b, seen⟩ e = ⟨s, b, seen⟩ := by
          unfold processLine
          simp [hd, ha]
        have hsurv : survivors tds ef seen (e :: es) = survivors tds ef seen es := by
          simp [survivors, hd, ha]
        rw [hstep, hsurv]
        exact ih s b seen
    · have hstep : processLine cc tds ef ⟨s, b, seen⟩ e = ⟨s, b, seen⟩ := by
        unfold processLine
        simp [hd]
      have hsurv : survivors tds ef seen (e :: es) = survivors tds ef seen es := by
        simp [survivors, hd]
      rw [hstep, hsurv]
      exact ih s b seen

/-- Claim C1: within one `iter_sessions` call, of two entries that both
carry a message id and a request id and agree on both, only the first
entry that passes the date filter and the predicate is folded into the
session accumulators; the later duplicate contributes nothing (same
file: part 1; a later file inheriting the threaded dedup set: parts 2
and 3); entries lacking either id are never deduplicated (part 4). -/
theorem C1_dedup_first_entry_wins :
    (∀ (cc : String → Nat → Nat → Nat → Nat → ℚ) (tds : List String)
       (ef : Option (Entry → Bool)) (sid proj : String) (seen : List String)
       (p m q : List Entry) (e1 e2 : Entry) (mid rid : String),
       message_id_of e1 = some mid → request_id_of e1 = some rid →
       message_id_of e2 = some mid → request_id_of e2 = some rid →
       dateMatch tds e1 = true → acceptEntry ef e1 = true →
       _process_session_file cc tds ef (p ++ e1 :: (m ++ e2 :: q)) sid proj seen
         = _process_session_file cc tds ef (p ++ e1 :: (m ++ q)) sid proj seen)
    ∧ (∀ (cc : String → Nat → Nat → Nat → Nat → ℚ) (tds : List String)
       (ef : Option (Entry → Bool)) (sid proj : String) (seen : List String)
       (p q : List Entry) (e2 : Entry) (mid rid : String),
       message_id_of e2 = some mid → request_id_of e2 = some rid →
       (mid ++ ":" ++ rid) ∈ seen →
       _process_session_file cc tds ef (p ++ e2 :: q) sid proj seen
         = _process_session_file cc tds ef (p ++ q) sid proj seen)
    ∧ (∀ (cc : String → Nat → Nat → Nat → Nat → ℚ) (tds : List String)
       (ef : Option (Entry → Bool)) (sid proj : String) (seen : List String)
       (es : List Entry) (e1 : Entry) (mid rid : String),
       e1 ∈ es → message_id_of e1 = some mid → request_id_of e1 = some rid →
       dateMatch tds e1 = true → acceptEntry ef e1 = true →
       (mid ++ ":" ++ rid) ∈ (_process_session_file cc tds ef es sid proj seen).2)
    ∧ (∀ (cc : String → Nat → Nat → Nat → Nat → ℚ) (tds : List String)
       (ef : Option (Entry → Bool)) (st : FileState) (e : Entry),
       _create_unique_hash e = none →
       dateMatch tds e = true → acceptEntry ef e = true →
       processLine cc tds ef st e = ⟨foldEntry cc e st.session, true, st.seen⟩) := by
  have skip_dup : ∀ (cc : String → Nat → Nat → Nat → Nat → ℚ) (tds : List String)
      (ef : Option (Entry → Bool)) (m q : List Entry) (e2 : Entry) (k : String),
      _create_unique_hash e2 = some k → ∀ st : FileState, k ∈ st.seen →
      (m ++ e2 :: q).foldl (processLine cc tds ef) st
        = (m ++ q).foldl (processLine cc tds ef) st := by
    intro cc tds ef m q e2 k hk2 st hmem
    rw [List.foldl_append, List.foldl_append, List.foldl_cons,
      processLine_dup cc tds ef _ e2 _ hk2
        (foldl_processLine_seen_mono cc tds ef m st _ hmem)]
  refine ⟨?_, ?_, ?_, ?_⟩
  · intro cc tds ef sid proj seen p m q e1 e2 mid rid h1m h1r h2m h2r hd ha
    have hk1 : _create_unique_hash e1 = some (mid ++ ":" ++ rid) := by
      unfold _create_unique_hash
      rw [h1m, h1r]
    have hk2 : _create_unique_hash e2 = some (mid ++ ":" ++ rid) := by
      unfold _create_unique_hash
      rw [h2m, h2r]
    have hstates : (p ++ e1 :: (m ++ e2 :: q)).foldl (processLine cc tds ef)
          ⟨SessionData.init sid proj, false, seen⟩
        = (p ++ e1 :: (m ++ q)).foldl (processLine cc tds ef)
          ⟨SessionData.init sid proj, false, seen⟩ := by
      rw [List.foldl_append, List.foldl_append, List.foldl_cons, List.foldl_cons]
      exact skip_dup cc tds ef m q e2 _ hk2 _
        (processLine_pass_seen cc tds ef _ e1 _ hk1 hd ha)
    unfold _process_session_file
    rw [hstates]
  · intro cc tds ef sid proj seen p q e2 mid rid h2m h2r hmem
    have hk2 : _create_unique_hash e2 = some (mid ++ ":" ++ rid) := by
      unfold _create_unique_hash
      rw [h2m, h2r]
    have hstates : (p ++ e2 :: q).foldl (processLine cc tds ef)
          ⟨SessionData.init sid proj, false, seen⟩
        = (p ++ q).foldl (processLine cc tds ef)
          ⟨SessionData.init sid proj, false, seen⟩ :=
      skip_dup cc tds ef p q e2 _ hk2 _ hmem
    unfold _process_session_file
    rw [hstates]
  · intro cc tds ef sid proj seen es e1 mid rid he1 h1m h1r hd ha
    have hk1 : _create_unique_hash e1 = some (mid ++ ":" ++ rid) := by
      unfold _create_unique_hash
      rw [h1m, h1r]
    obtain ⟨u, v, rfl⟩ := List.append_of_mem he1
    unfold _process_session_file
    have hsplit : u ++ e1 :: v = (u ++ [e1]) ++ v := by simp
    rw [hsplit, List.foldl_append]
    exact foldl_processLine_seen_mono cc tds ef v _ _ (by
      rw [List.foldl_append]
      simp only [List.foldl_cons, List.foldl_nil]
      exact processLine_pass_seen cc tds ef _ e1 _ hk1 hd ha)
  · intro cc tds ef st e hk hd ha
    unfold processLine
    rw [hk, hd, ha]
    simp

/-- Witness for C1: a concrete file where the second entry repeats the
first entry's message and request ids is processed identically to the
file with the duplicate removed. -/
theorem C1_witness :
    _process_session_file cc0 ["2025-01-01"] none [e1dup, e2dup] "sid" "proj" []
      = _process_session_file cc0 ["2025-01-01"] none [e1dup] "sid" "proj" [] :=
  C1_dedup_first_entry_wins.1 cc0 ["2025-01-01"] none "sid" "proj" [] [] [] []
    e1dup e2dup "msg-1" "req-1" (by decide) (by decide) (by decide) (by decide)
    (by decide) (by decide)

/-- Claim C2: `total_tokens` is a derived property, never stored: for
every SessionData value, and in particular for the state reached after
processing any prefix of a file during a scan, it equals
`input_tokens + output_tokens + cache_read + cache_create`. -/
theorem C2_total_tokens_invariant :
    (∀ s : SessionData,
      s.total_tokens = s.input_tokens + s.output_tokens + s.cache_read + s.cache_create)
    ∧ (∀ (cc : String → Nat → Nat → Nat → Nat → ℚ) (tds : List String)
       (ef : Option (Entry → Bool)) (es : List Entry) (sid proj : String)
       (seen : List String) (n : Nat),
      (((es.take n).foldl (processLine cc tds ef)
          ⟨SessionData.init sid proj, false, seen⟩).session).total_tokens
        = (((es.take n).foldl (processLine cc tds ef)
            ⟨SessionData.init sid proj, false, seen⟩).session).input_tokens
          + (((es.take n).foldl (processLine cc tds ef)
              ⟨SessionData.init sid proj, false, seen⟩).session).output_tokens
          + (((es.take n).foldl (processLine cc tds ef)
              ⟨SessionData.init sid proj, false, seen⟩).session).cache_read
          + (((es.take n).foldl (processLine cc tds ef)
              ⟨SessionData.init sid proj, false, seen⟩).session).cache_create) :=
  ⟨fun _ => rfl, fun _ _ _ _ _ _ _ _ => rfl⟩

/-- Claim C3: a file's SessionData passes the yield gate of
`iter_sessions` exactly when the file contributed at least one
surviving entry (date-matched, predicate-accepted, not deduplicated)
and the accumulated `output_tokens` is strictly positive. -/
theorem C3_yield_iff :
    ∀ (cc : String → Nat → Nat → Nat → Nat → ℚ) (tds : List String)
      (ef : Option (Entry → Bool)) (es : List Entry) (sid proj : String)
      (seen : List String),
    ((∃ s, (_process_session_file cc tds ef es sid proj seen).1 = some s
        ∧ 0 < s.output_tokens)
      ↔ (survivors tds ef seen es ≠ []
          ∧ 0 < ((survivors tds ef seen es).map entryOutput).sum))
    ∧ (∀ s, s ∈ iter_sessions cc [(proj, [(sid, es)])] tds ef
        ↔ ((_process_session_file cc tds ef es sid proj []).1 = some s
            ∧ 0 < s.output_tokens)) := by
  intro cc tds ef es sid proj seen
  constructor
  · obtain ⟨h1, h2⟩ :=
      foldl_processLine_spec cc tds ef es (SessionData.init sid proj) false seen
    unfold _process_session_file
    dsimp only
    constructor
    · rintro ⟨s, hs, hpos⟩
      by_cases hflag :
          (es.foldl (processLine cc tds ef)
            ⟨SessionData.init sid proj, false, seen⟩).has_target_date
      · rw [if_pos hflag] at hs
        have hss := Option.some.inj hs
        subst hss
        refine ⟨?_, ?_⟩
        · rw [hflag] at h2
          intro hnil
          rw [hnil] at h2
          simp at h2
        · rw [h1] at hpos
          simpa [SessionData.init] using hpos
      · rw [if_neg hflag] at hs
        exact absurd hs (by simp)
    · rintro ⟨hne, hpos⟩
      have hflag :
          (es.foldl (processLine cc tds ef)
            ⟨SessionData.init sid proj, false, seen⟩).has_target_date = true := by
        rw [h2]
        simpa using hne
      refine ⟨(es.foldl (processLine cc tds ef)
          ⟨SessionData.init sid proj, false, seen⟩).session, by rw [if_pos hflag], ?_⟩
      rw [h1]
      simpa [SessionData.init] using hpos
  · intro s
    unfold iter_sessions iterDirs iterFiles
    cases hr : (_process_session_file cc tds ef es sid proj []).1 with
    | none =>
      simp only [hr]
      simp [iterFiles, iterDirs, hr]
    | some s0 =>
      by_cases hpos : 0 < s0.output_tokens
      · simp only [hr]
        simp only [iterFiles, iterDirs, hpos, if_true, List.append_nil]
        constructor
        · intro hss
          rw [List.mem_singleton] at hss
          subst hss
          exact ⟨rfl, hpos⟩
        · rintro ⟨hss, _⟩
          rw [Option.some.inj hss]
          simp
      · simp only [hr]
        simp only [iterFiles, iterDirs, hpos, if_false, List.append_nil]
        constructor
        · intro hss
          simp at hss
        · rintro ⟨hss, hp⟩
          rw [Option.some.inj hss] at hpos
          exact absurd hp hpos

/-- Witness for C3: a concrete one-entry file with 5 output tokens
produces a yieldable session. -/
theorem C3_witness :
    ∃ s, (_process_session_file cc0 ["2025-01-01"] none [e1dup] "sid" "proj" []).1 = some s
      ∧ 0 < s.output_tokens :=
  (C3_yield_iff cc0 ["2025-01-01"] none [e1dup] "sid" "proj" []).1.mpr
    ⟨by decide, by decide⟩

/-! ## Helper lemmas for domain classification -/

theorem findDomain_append (nl : String) (pre : List (String × List String))
    (d : String × List String) (rest : List (String × List String))
    (hpre : ∀ dp ∈ pre, ∀ pattern ∈ dp.2, strContains nl pattern = false)
    (hd : ∃ pattern ∈ d.2, strContains nl pattern = true) :
    findDomain nl (pre ++ d :: rest) = d.1 := by
  induction pre with
  | nil =>
    obtain ⟨pattern, hp, hc⟩ := hd
    obtain ⟨dom, pats⟩ := d
    simp only [List.nil_append, findDomain]
    rw [if_pos]
    exact List.any_eq_true.mpr ⟨pattern, hp, hc⟩
  | cons a pre ih =>
    obtain ⟨dom, pats⟩ := a
    simp only [List.cons_append, findDomain]
    rw [if_neg]
    · exact ih (fun dp hdp => hpre dp (List.mem_cons_of_mem _ hdp))
    · intro hany
      obtain ⟨pattern, hp, hc⟩ := List.any_eq_true.mp hany
      have := hpre (dom, pats) (List.mem_cons_self _ _) pattern hp
      rw [this] at hc
      exact Bool.false_ne_true hc

theorem findDomain_other (nl : String) (l : List (String × List String))
    (h : ∀ dp ∈ l, ∀ pattern ∈ dp.2, strContains nl pattern = false) :
    findDomain nl l = "other" := by
  induction l with
  | nil => rfl
  | cons a l ih =>
    obtain ⟨dom, pats⟩ := a
    simp only [findDomain]
    rw [if_neg]
    · exact ih (fun dp hdp => h dp (List.mem_cons_of_mem _ hdp))
    · intro hany
      obtain ⟨pattern, hp, hc⟩ := List.any_eq_true.mp hany
      have := h (dom, pats) (List.mem_cons_self _ _) pattern hp
      rw [this] at hc
      exact Bool.false_ne_true hc

/-- Claim C4: `_get_domain` tests the lowercased tool name against the
domain pattern lists in the fixed declared order with "other" as
fallback, the first matching domain winning; in particular
"mcp__pipedrive__search_deal" classifies to "crm" and none of the
earlier domains (coding, research, communication) matches it. -/
theorem C4_domain_classification :
    (_get_domain "mcp__pipedrive__search_deal" = "crm")
    ∧ (∀ dp ∈ DOMAIN_PATTERNS.take 3, ∀ pattern ∈ dp.2,
        strContains (pyLower "mcp__pipedrive__search_deal") pattern = false)
    ∧ (DOMAIN_PATTERNS.map Prod.fst
        = ["coding", "research", "communication", "crm", "meetings", "automation",
           "data", "agents"])
    ∧ (∀ (name : String) (pre : List (String × List String))
         (d : String × List String) (rest : List (String × List String)),
        DOMAIN_PATTERNS = pre ++ d :: rest →
        (∀ dp ∈ pre, ∀ pattern ∈ dp.2, strContains (pyLower name) pattern = false) →
        (∃ pattern ∈ d.2, strContains (pyLower name) pattern = true) →
        _get_domain name = d.1)
    ∧ (∀ name : String,
        (∀ dp ∈ DOMAIN_PATTERNS, ∀ pattern ∈ dp.2,
          strContains (pyLower name) pattern = false) →
        _get_domain name = "other") := by
  refine ⟨by decide, by decide, by decide, ?_, ?_⟩
  · intro name pre d rest heq hpre hd
    unfold _get_domain
    rw [heq]
    exact findDomain_append (pyLower name) pre d rest hpre hd
  · intro name h
    unfold _get_domain
    exact findDomain_other (pyLower name) DOMAIN_PATTERNS h

/-- Witness for C4: the first-match rule applied at a concrete split of
the pattern table classifies "WebSearch" to "research". -/
theorem C4_witness : _get_domain "WebSearch" = "research" :=
  C4_domain_classification.2.2.2.1 "WebSearch"
    [("coding", ["edit", "write", "bash", "grep", "glob", "read"])]
    ("research", ["websearch", "webfetch"])
    [("communication", ["mcp__outlook", "email"]),
     ("crm", ["mcp__pipedrive"]),
     ("meetings", ["mcp__ask-maia", "maia"]),
     ("automation", ["n8n", "workflow"]),
     ("data", ["sql", "database", "supabase"]),
     ("agents", ["task", "agent"])]
    (by decide) (by decide) (by decide)

/-- The nested trend-factor conditional of the source equals
`codeTrendFactor`. -/
theorem codeTrendFactor_eq (t : Trends) :
    (if t.direction = "increasing" then 1 + t.tokens_change_pct / 100 * (1 / 2)
     else if t.direction = "decreasing" then 1 + t.tokens_change_pct / 100 * (1 / 2)
     else 1) = codeTrendFactor t := by
  unfold codeTrendFactor claimTrendFactor
  by_cases hinc : t.direction = "increasing"
  · rw [if_pos hinc, if_pos (Or.inl hinc)]
  · rw [if_neg hinc]
    by_cases hdec : t.direction = "decreasing"
    · rw [if_pos hdec, if_pos (Or.inr hdec)]
    · rw [if_neg hdec, if_neg (by tauto)]

/-- Counterexample for C5: on a 7-day history whose token change is +5
percent the computed direction is "stable", and the code then leaves
the trend factor at 1 instead of applying the claimed
1 + (tokens_change_pct/100 x 0.5): the projected cost is 16, not the
claimed 16.4. -/
theorem C5_counterexample :
    ¬ ((_generate_forecasts hist7 (_calculate_trends hist7) 1).cost
        = specWeightedAvg (fun d => d.cost) hist7 * ((1 : Nat) : ℚ)
          * claimTrendFactor (_calculate_trends hist7)) := by
  have ht : _calculate_trends hist7 = ⟨"stable", 0, 5, 0⟩ := by
    norm_num [_calculate_trends, hist7]
  rw [ht]
  norm_num [_generate_forecasts, specWeightedAvg, claimTrendFactor, hist7]
  exact ⟨by decide, by decide⟩

/-- Claim C5 (amended): for histories of at least 7 days each projected
quantity equals the weight-[1,1,2,2,3,3,4] weighted average over the 7
most recent buckets, times the number of forecast days, times a trend
factor that is 1 + (tokens_change_pct/100 x 0.5) when the computed
direction is "increasing" or "decreasing" (identically regardless of
sign) and exactly 1 when the direction is "stable". -/
theorem C5_forecast_formula (history : List DailyStats) (forecast_days : Nat)
    (h : 7 ≤ history.length) :
    ((_generate_forecasts history (_calculate_trends history) forecast_days).sessions
      = pyInt (specWeightedAvg (fun d => (d.sessions : ℚ)) history * (forecast_days : ℚ)
          * codeTrendFactor (_calculate_trends history)))
    ∧ ((_generate_forecasts history (_calculate_trends history) forecast_days).output_tokens
      = pyInt (specWeightedAvg (fun d => (d.output_tokens : ℚ)) history * (forecast_days : ℚ)
          * codeTrendFactor (_calculate_trends history)))
    ∧ ((_generate_forecasts history (_calculate_trends history) forecast_days).cost
      = specWeightedAvg (fun d => d.cost) history * (forecast_days : ℚ)
          * codeTrendFactor (_calculate_trends history)) := by
  have hlen : ¬ history.length < 7 := Nat.not_lt.mpr h
  unfold _generate_forecasts
  rw [if_neg hlen, codeTrendFactor_eq]
  unfold specWeightedAvg
  exact ⟨rfl, rfl, rfl⟩

/-- Witness for C5 (amended): the formula evaluated on the concrete
7-day history. -/
theorem C5_witness :
    7 ≤ hist7.length
    ∧ ((_generate_forecasts hist7 (_calculate_trends hist7) 1).cost
        = specWeightedAvg (fun d => d.cost) hist7 * ((1 : Nat) : ℚ)
          * codeTrendFactor (_calculate_trends hist7)) :=
  ⟨by decide, (C5_forecast_formula hist7 1 (by decide)).2.2⟩

/-- Claim C8: the CacheStats formulas: total input context is the sum of
the three input-side counters, the hit rate is the cache-read share (0
on empty context), wasted cache tokens are max(0, create - read); plus
the two concrete instances from the spec. -/
theorem C8_cache_stats :
    (∀ c : CacheStats,
      c.total_input_context = c.cache_read + c.cache_create + c.input_tokens)
    ∧ (∀ c : CacheStats,
      c.cache_hit_rate =
        if c.total_input_context = 0 then 0
        else (c.cache_read : ℚ) / (c.total_input_context : ℚ) * 100)
    ∧ (∀ c : CacheStats,
      (c.wasted_cache_tokens : ℤ) = max 0 ((c.cache_create : ℤ) - (c.cache_read : ℤ)))
    ∧ (c800.total_input_context = 1000000 ∧ c800.cache_hit_rate = 80
        ∧ c800.wasted_cache_tokens = 0)
    ∧ (c300.wasted_cache_tokens = 250000) := by
  refine ⟨fun c => rfl, ?_, ?_,
    by norm_num [c800, CacheStats.total_input_context, CacheStats.cache_hit_rate,
      CacheStats.wasted_cache_tokens],
    by norm_num [c300, CacheStats.wasted_cache_tokens]⟩
  · intro c
    unfold CacheStats.cache_hit_rate
    rcases Nat.eq_zero_or_pos c.total_input_context with h0 | hpos
    · rw [if_neg (by omega), if_pos h0]
    · rw [if_pos hpos, if_neg (by omega)]
  · intro c
    unfold CacheStats.wasted_cache_tokens
    split
    · rename_i hlt
      rw [max_eq_right (by omega)]
      omega
    · rename_i hge
      rw [max_eq_left (by omega)]
      simp

/-! ## Helper lemmas about the anomaly rules -/

theorem mem_ite_singleton {α : Type} {c : Prop} [Decidable c] {x a : α} :
    a ∈ (if c then [x] else []) ↔ c ∧ a = x := by
  split
  · rename_i hc
    simp [hc]
  · rename_i hc
    simp [hc]

theorem toolLoopRec_type (s : SessionData) (p : String × Nat) :
    (toolLoopRec s p).type = "tool_loop" := rfl

theorem costSpikeRec_type (s : SessionData) :
    (costSpikeRec s).type = "cost_spike" := rfl

theorem mem_toolLoop_iff (s : SessionData) (a : Anomaly) :
    a ∈ toolLoopAnomalies s
      ↔ ∃ p, p ∈ s.tool_calls ∧ 20 < p.2 ∧ a = toolLoopRec s p := by
  unfold toolLoopAnomalies
  rw [List.mem_filterMap]
  constructor
  · rintro ⟨p, hp, hpe⟩
    split at hpe
    · rename_i hc
      exact ⟨p, hp, by simpa [LOOP_THRESHOLD_TOOL] using hc, (Option.some.inj hpe).symm⟩
    · exact absurd hpe (by simp)
  · rintro ⟨p, hp, h20, rfl⟩
    refine ⟨p, hp, ?_⟩
    rw [if_pos (by simpa [LOOP_THRESHOLD_TOOL] using h20)]

theorem mem_fileLoop_type (s : SessionData) (a : Anomaly)
    (ha : a ∈ fileLoopAnomalies s) : a.type = "file_loop" := by
  unfold fileLoopAnomalies at ha
  obtain ⟨p, _, hpe⟩ := List.mem_filterMap.mp ha
  split at hpe
  · rw [← Option.some.inj hpe]
    rfl
  · exact absurd hpe (by simp)

theorem mem_sqlLoop_type (s : SessionData) (a : Anomaly)
    (ha : a ∈ sqlLoopAnomalies s) : a.type = "sql_loop" := by
  obtain ⟨-, rfl⟩ := mem_ite_singleton.mp ha
  rfl

theorem mem_tokenSpike_type (s : SessionData) (a : Anomaly)
    (ha : a ∈ tokenSpikeAnomalies s) : a.type = "token_spike" := by
  obtain ⟨-, rfl⟩ := mem_ite_singleton.mp ha
  rfl

theorem mem_agentSpawn_type (s : SessionData) (a : Anomaly)
    (ha : a ∈ agentSpawnAnomalies s) : a.type = "agent_spawn_loop" := by
  obtain ⟨-, rfl⟩ := mem_ite_singleton.mp ha
  rfl

theorem mem_costSpike_elim (s : SessionData) (l : List Anomaly) (a : Anomaly)
    (ha : a ∈ costSpikeAnomalies s l) :
    a = costSpikeRec s ∧ SPIKE_THRESHOLD_COST < s.cost
      ∧ ¬ l.any (fun b => b.type == "token_spike" && b.severity == "HIGH") = true := by
  unfold costSpikeAnomalies at ha
  split at ha
  · rename_i h5
    split at ha
    · rename_i hno
      rw [List.mem_singleton] at ha
      exact ⟨ha, h5, hno⟩
    · exact absurd ha (by simp)
  · exact absurd ha (by simp)

theorem detect_eq (s : SessionData) :
    _detect_session_anomalies s
      = (toolLoopAnomalies s ++ fileLoopAnomalies s ++ sqlLoopAnomalies s
          ++ tokenSpikeAnomalies s)
        ++ costSpikeAnomalies s
          (toolLoopAnomalies s ++ fileLoopAnomalies s ++ sqlLoopAnomalies s
            ++ tokenSpikeAnomalies s)
        ++ agentSpawnAnomalies s := rfl

theorem token_high_pre_iff (s : SessionData) :
    (∃ a ∈ toolLoopAnomalies s ++ fileLoopAnomalies s ++ sqlLoopAnomalies s
        ++ tokenSpikeAnomalies s, a.type = "token_spike" ∧ a.severity = "HIGH")
      ↔ 1000000 < s.output_tokens := by
  constructor
  · rintro ⟨a, ha, htype, hsev⟩
    rw [List.mem_append] at ha
    rcases ha with ha | ha
    · rw [List.mem_append] at ha
      rcases ha with ha | ha
      · rw [List.mem_append] at ha
        rcases ha with ha | ha
        · obtain ⟨p, -, -, rfl⟩ := (mem_toolLoop_iff s a).mp ha
          rw [toolLoopRec_type] at htype
          exact absurd htype (by decide)
        · rw [mem_fileLoop_type s a ha] at htype
          exact absurd htype (by decide)
      · rw [mem_sqlLoop_type s a ha] at htype
        exact absurd htype (by decide)
    · obtain ⟨-, rfl⟩ := mem_ite_singleton.mp ha
      have hsev2 : (if SPIKE_THRESHOLD_TOKENS * 2 < s.output_tokens
          then "HIGH" else "MEDIUM") = "HIGH" := hsev
      split at hsev2
      · rename_i h2
        simpa [SPIKE_THRESHOLD_TOKENS] using h2
      · exact absurd hsev2 (by decide)
  · intro h10
    refine ⟨tokenSpikeRec s, ?_, rfl, ?_⟩
    · rw [List.mem_append]
      right
      exact mem_ite_singleton.mpr ⟨by unfold SPIKE_THRESHOLD_TOKENS; omega, rfl⟩
    · show (if SPIKE_THRESHOLD_TOKENS * 2 < s.output_tokens
          then "HIGH" else "MEDIUM") = "HIGH"
      rw [if_pos (by unfold SPIKE_THRESHOLD_TOKENS; omega)]

theorem token_high_detect_iff (s : SessionData) :
    (∃ a ∈ _detect_session_anomalies s, a.type = "token_spike" ∧ a.severity = "HIGH")
      ↔ 1000000 < s.output_tokens := by
  rw [← token_high_pre_iff s]
  constructor
  · rintro ⟨a, ha, hprop⟩
    rw [detect_eq, List.mem_append, List.mem_append] at ha
    rcases ha with (ha | ha) | ha
    · exact ⟨a, ha, hprop⟩
    · obtain ⟨rfl, -, -⟩ := mem_costSpike_elim s _ a ha
      obtain ⟨h1, -⟩ := hprop
      rw [costSpikeRec_type] at h1
      exact absurd h1 (by decide)
    · rw [mem_agentSpawn_type s a ha] at hprop
      exact absurd hprop.1 (by decide)
  · rintro ⟨a, ha, hprop⟩
    refine ⟨a, ?_, hprop⟩
    rw [detect_eq, List.mem_append, List.mem_append]
    exact Or.inl (Or.inl ha)

theorem any_token_high_eq (s : SessionData) :
    ((toolLoopAnomalies s ++ fileLoopAnomalies s ++ sqlLoopAnomalies s
        ++ tokenSpikeAnomalies s).any
      (fun b => b.type == "token_spike" && b.severity == "HIGH")) = true
      ↔ 1000000 < s.output_tokens := by
  rw [List.any_eq_true, ← token_high_pre_iff s]
  constructor
  · rintro ⟨a, ha, hb⟩
    rw [Bool.and_eq_true, beq_iff_eq, beq_iff_eq] at hb
    exact ⟨a, ha, hb⟩
  · rintro ⟨a, ha, h1, h2⟩
    exact ⟨a, ha, by rw [Bool.and_eq_true, beq_iff_eq, beq_iff_eq]; exact ⟨h1, h2⟩⟩

/-- Claim C6: a cost_spike anomaly is emitted for a session iff its cost
exceeds 5 dollars and no HIGH token_spike anomaly was recorded for the
session; when emitted its severity is HIGH iff the cost exceeds 10
dollars, else MEDIUM. -/
theorem C6_cost_spike (s : SessionData) :
    ((∃ a ∈ _detect_session_anomalies s, a.type = "cost_spike")
      ↔ (5 < s.cost ∧ ¬ ∃ a ∈ _detect_session_anomalies s,
            a.type = "token_spike" ∧ a.severity = "HIGH"))
    ∧ (∀ a ∈ _detect_session_anomalies s, a.type = "cost_spike" →
        a.severity = (if 10 < s.cost then "HIGH" else "MEDIUM")) := by
  constructor
  · rw [token_high_detect_iff s]
    constructor
    · rintro ⟨a, ha, htype⟩
      rw [detect_eq, List.mem_append, List.mem_append] at ha
      rcases ha with (ha | ha) | ha
      · rw [List.mem_append] at ha
        rcases ha with ha | ha
        · rw [List.mem_append] at ha
          rcases ha with ha | ha
          · rw [List.mem_append] at ha
            rcases ha with ha | ha
            · obtain ⟨p, -, -, rfl⟩ := (mem_toolLoop_iff s a).mp ha
              rw [toolLoopRec_type] at htype
              exact absurd htype (by decide)
            · rw [mem_fileLoop_type s a ha] at htype
              exact absurd htype (by decide)
          · rw [mem_sqlLoop_type s a ha] at htype
            exact absurd htype (by decide)
        · rw [mem_tokenSpike_type s a ha] at htype
          exact absurd htype (by decide)
      · obtain ⟨-, h5, hno⟩ := mem_costSpike_elim s _ a ha
        refine ⟨by simpa [SPIKE_THRESHOLD_COST] using h5, ?_⟩
        rw [← any_token_high_eq s]
        exact hno
      · rw [mem_agentSpawn_type s a ha] at htype
        exact absurd htype (by decide)
    · rintro ⟨h5, h10⟩
      refine ⟨costSpikeRec s, ?_, rfl⟩
      rw [detect_eq, List.mem_append, List.mem_append]
      refine Or.inl (Or.inr ?_)
      unfold costSpikeAnomalies
      rw [if_pos (by simpa [SPIKE_THRESHOLD_COST] using h5),
        if_pos (by rw [any_token_high_eq s] at *; exact fun h => h10 h)]
      exact List.mem_singleton.mpr rfl
  · intro a ha htype
    rw [detect_eq, List.mem_append, List.mem_append] at ha
    rcases ha with (ha | ha) | ha
    · rw [List.mem_append] at ha
      rcases ha with ha | ha
      · rw [List.mem_append] at ha
        rcases ha with ha | ha
        · rw [List.mem_append] at ha
          rcases ha with ha | ha
          · obtain ⟨p, -, -, rfl⟩ := (mem_toolLoop_iff s a).mp ha
            rw [toolLoopRec_type] at htype
            exact absurd htype (by decide)
          · rw [mem_fileLoop_type s a ha] at htype
            exact absurd htype (by decide)
        · rw [mem_sqlLoop_type s a ha] at htype
          exact absurd htype (by decide)
      · rw [mem_tokenSpike_type s a ha] at htype
        exact absurd htype (by decide)
    · obtain ⟨rfl, -, -⟩ := mem_costSpike_elim s _ a ha
      show (if SPIKE_THRESHOLD_COST * 2 < s.cost then "HIGH" else "MEDIUM") = _
      have h10 : SPIKE_THRESHOLD_COST * 2 = (10 : ℚ) := by
        norm_num [SPIKE_THRESHOLD_COST]
      rw [h10]
    · rw [mem_agentSpawn_type s a ha] at htype
      exact absurd htype (by decide)

/-- Witness for C6: the concrete 6-dollar session gets a cost_spike. -/
theorem C6_witness :
    ∃ a ∈ _detect_session_anomalies sessionC6, a.type = "cost_spike" :=
  (C6_cost_spike sessionC6).1.mpr ⟨by decide, by decide⟩

theorem filter_nil_of_type (l : List Anomaly) (t : String)
    (ht : ∀ a ∈ l, a.type = t) (hne : ¬ t = "tool_loop") :
    l.filter (fun a => a.type == "tool_loop") = [] := by
  rw [List.filter_eq_nil_iff]
  intro a ha
  simp only [beq_iff_eq]
  rw [ht a ha]
  exact hne

theorem filter_detect_toolLoop (s : SessionData) :
    (_detect_session_anomalies s).filter (fun a => a.type == "tool_loop")
      = toolLoopAnomalies s := by
  rw [detect_eq]
  simp only [List.filter_append]
  rw [filter_nil_of_type (fileLoopAnomalies s) "file_loop" (mem_fileLoop_type s)
      (by decide),
    filter_nil_of_type (sqlLoopAnomalies s) "sql_loop" (mem_sqlLoop_type s)
      (by decide),
    filter_nil_of_type (tokenSpikeAnomalies s) "token_spike" (mem_tokenSpike_type s)
      (by decide),
    filter_nil_of_type
      (costSpikeAnomalies s
        (toolLoopAnomalies s ++ fileLoopAnomalies s ++ sqlLoopAnomalies s
          ++ tokenSpikeAnomalies s))
      "cost_spike"
      (fun a ha => by rw [(mem_costSpike_elim s _ a ha).1]; rfl) (by decide),
    filter_nil_of_type (agentSpawnAnomalies s) "agent_spawn_loop"
      (mem_agentSpawn_type s) (by decide),
    List.filter_eq_self.mpr]
  · simp
  · intro a ha
    obtain ⟨p, -, -, rfl⟩ := (mem_toolLoop_iff s a).mp ha
    simp [toolLoopRec_type]

theorem toolLoop_length (s : SessionData) :
    (toolLoopAnomalies s).length
      = (s.tool_calls.filter (fun p => decide (20 < p.2))).length := by
  unfold toolLoopAnomalies
  simp only [LOOP_THRESHOLD_TOOL]
  generalize s.tool_calls = l
  induction l with
  | nil => rfl
  | cons p l ih =>
    rw [List.filterMap_cons, List.filter_cons]
    by_cases h : 20 < p.2 <;> simp [h, ih]

/-- Claim C7: a tool_loop anomaly is emitted for a (tool, count) pair
exactly when the count exceeds 20, with severity HIGH exactly when the
count exceeds 60 and MEDIUM otherwise; a session with one tool called
21 times yields exactly one tool_loop anomaly of severity MEDIUM, and
61 calls yields severity HIGH. -/
theorem C7_tool_loop :
    (∀ (s : SessionData) (t : String) (c : Nat), (t, c) ∈ s.tool_calls → 20 < c →
       ∃ a ∈ _detect_session_anomalies s, a.type = "tool_loop" ∧ a.count = c
         ∧ a.severity = (if 60 < c then "HIGH" else "MEDIUM"))
    ∧ (∀ s : SessionData, ∀ a ∈ _detect_session_anomalies s, a.type = "tool_loop" →
        20 < a.count ∧ a.severity = (if 60 < a.count then "HIGH" else "MEDIUM"))
    ∧ (∀ s : SessionData,
        ((_detect_session_anomalies s).filter (fun a => a.type == "tool_loop")).length
          = (s.tool_calls.filter (fun p => decide (20 < p.2))).length)
    ∧ (((_detect_session_anomalies s21).filter (fun a => a.type == "tool_loop")).map
         (fun a => (a.severity, a.count)) = [("MEDIUM", 21)])
    ∧ (((_detect_session_anomalies s61).filter (fun a => a.type == "tool_loop")).map
         (fun a => (a.severity, a.count)) = [("HIGH", 61)]) := by
  have h60 : LOOP_THRESHOLD_TOOL * 3 = 60 := by norm_num [LOOP_THRESHOLD_TOOL]
  refine ⟨?_, ?_, ?_, by decide, by decide⟩
  · intro s t c hmem h20
    refine ⟨toolLoopRec s (t, c), ?_, rfl, rfl, ?_⟩
    · rw [detect_eq, List.mem_append, List.mem_append, List.mem_append,
        List.mem_append, List.mem_append]
      exact Or.inl (Or.inl (Or.inl (Or.inl (Or.inl
        ((mem_toolLoop_iff s _).mpr ⟨(t, c), hmem, h20, rfl⟩)))))
    · show (if LOOP_THRESHOLD_TOOL * 3 < (t, c).2 then "HIGH" else "MEDIUM") = _
      rw [h60]
  · intro s a ha htype
    rw [detect_eq, List.mem_append, List.mem_append] at ha
    rcases ha with (ha | ha) | ha
    · rw [List.mem_append] at ha
      rcases ha with ha | ha
      · rw [List.mem_append] at ha
        rcases ha with ha | ha
        · rw [List.mem_append] at ha
          rcases ha with ha | ha
          · obtain ⟨p, -, h20, rfl⟩ := (mem_toolLoop_iff s a).mp ha
            refine ⟨h20, ?_⟩
            show (if LOOP_THRESHOLD_TOOL * 3 < p.2 then "HIGH" else "MEDIUM") = _
            rw [h60]
            rfl
          · rw [mem_fileLoop_type s a ha] at htype
            exact absurd htype (by decide)
        · rw [mem_sqlLoop_type s a ha] at htype
          exact absurd htype (by decide)
      · rw [mem_tokenSpike_type s a ha] at htype
        exact absurd htype (by decide)
    · rw [(mem_costSpike_elim s _ a ha).1, costSpikeRec_type] at htype
      exact absurd htype (by decide)
    · rw [mem_agentSpawn_type s a ha] at htype
      exact absurd htype (by decide)
  · intro s
    rw [filter_detect_toolLoop, toolLoop_length]

/-- Witness for C7: the session with one tool called 21 times. -/
theorem C7_witness :
    ∃ a ∈ _detect_session_anomalies s21, a.type = "tool_loop" ∧ a.count = 21
      ∧ a.severity = (if 60 < 21 then "HIGH" else "MEDIUM") :=
  C7_tool_loop.1 s21 "Bash" 21 (by decide) (by decide)

/-! ## Helper lemmas for the balance score -/

theorem dictGetQ_nonneg (d : List (String × ℚ)) (hv : ∀ p ∈ d, 0 ≤ p.2)
    (k : String) : 0 ≤ dictGetQ d k := by
  induction d with
  | nil => exact le_refl 0
  | cons p rest ih =>
    obtain ⟨k0, v⟩ := p
    unfold dictGetQ
    split
    · exact hv (k0, v) (List.mem_cons_self _ _)
    · exact ih (fun q hq => hv q (List.mem_cons_of_mem _ hq))

theorem sum_dictGetQ_le (qs : List String) (d : List (String × ℚ))
    (hq : qs.Nodup) (hv : ∀ p ∈ d, 0 ≤ p.2) :
    ((qs.map (dictGetQ d)).sum) ≤ ((d.map (fun p => p.2)).sum) := by
  induction d generalizing qs with
  | nil =>
    simp [dictGetQ]
  | cons p rest ih =>
    obtain ⟨k0, v⟩ := p
    have h0 : (0 : ℚ) ≤ v := hv (k0, v) (List.mem_cons_self _ _)
    have hvr : ∀ q ∈ rest, 0 ≤ q.2 := fun q hq2 => hv q (List.mem_cons_of_mem _ hq2)
    by_cases hk : k0 ∈ qs
    · obtain ⟨l1, l2, rfl⟩ := List.append_of_mem hk
      rw [List.nodup_append] at hq
      obtain ⟨hn1, hn2, hdisj⟩ := hq
      have hp1 : k0 ∉ l1 := fun hmem => hdisj hmem (List.mem_cons_self _ _)
      have hp2 : k0 ∉ l2 := (List.nodup_cons.mp hn2).1
      have hm1 : l1.map (dictGetQ ((k0, v) :: rest)) = l1.map (dictGetQ rest) :=
        List.map_congr_left (fun n hn => by
          simp only [dictGetQ]
          rw [if_neg (fun h => hp1 (by rw [h]; exact hn))])
      have hm2 : l2.map (dictGetQ ((k0, v) :: rest)) = l2.map (dictGetQ rest) :=
        List.map_congr_left (fun n hn => by
          simp only [dictGetQ]
          rw [if_neg (fun h => hp2 (by rw [h]; exact hn))])
      have hself : dictGetQ ((k0, v) :: rest) k0 = v := by
        simp [dictGetQ]
      have hih := ih (l1 ++ l2) (List.nodup_append.mpr
        ⟨hn1, (List.nodup_cons.mp hn2).2,
          fun a ha1 ha2 => hdisj ha1 (List.mem_cons_of_mem _ ha2)⟩) hvr
      rw [List.map_append, List.sum_append] at hih
      rw [List.map_append, List.map_cons, List.sum_append, List.sum_cons,
        hm1, hm2, hself, List.map_cons, List.sum_cons]
      linarith
    · have hm : qs.map (dictGetQ ((k0, v) :: rest)) = qs.map (dictGetQ rest) :=
        List.map_congr_left (fun n hn => by
          simp only [dictGetQ]
          rw [if_neg (fun h => hk (by rw [h]; exact hn))])
      rw [hm, List.map_cons, List.sum_cons]
      have := ih qs hq hvr
      linarith

theorem domainPcts_nonneg (domains : List (String × Nat)) :
    ∀ p ∈ domainPcts domains, 0 ≤ p.2 := by
  intro p hp
  unfold domainPcts at hp
  obtain ⟨d, hd, rfl⟩ := List.mem_map.mp hp
  dsimp only
  split
  · positivity
  · exact le_refl 0

theorem domainPcts_sum_le (domains : List (String × Nat)) :
    ((domainPcts domains).map (fun p => p.2)).sum ≤ 100 := by
  unfold domainPcts
  rw [List.map_map]
  by_cases h : 0 < (domains.map (fun d => d.2)).sum
  · have hfun : ((fun p : String × ℚ => p.2) ∘
        (fun d : String × Nat =>
          (d.1, if 0 < (domains.map (fun d => d.2)).sum
            then (d.2 : ℚ) / (((domains.map (fun d => d.2)).sum : Nat) : ℚ) * 100
            else 0)))
        = fun d : String × Nat =>
            (d.2 : ℚ) * (100 / (((domains.map (fun d => d.2)).sum : Nat) : ℚ)) := by
      funext d
      simp only [Function.comp_apply, if_pos h]
      ring
    rw [hfun, List.sum_map_mul_right]
    have hcast : (domains.map (fun d : String × Nat => ((d.2 : Nat) : ℚ))).sum
        = (((domains.map (fun d => d.2)).sum : Nat) : ℚ) := by
      rw [Nat.cast_list_sum, List.map_map]
      rfl
    rw [hcast]
    have hne : ((((domains.map (fun d => d.2)).sum : Nat) : ℚ)) ≠ 0 := by
      exact_mod_cast Nat.pos_iff_ne_zero.mp h
    exact le_of_eq (by rw [mul_comm, div_mul_cancel₀ _ hne])
  · have h0 : (domains.map (fun d => d.2)).sum = 0 := by omega
    have hfun : ((fun p : String × ℚ => p.2) ∘
        (fun d : String × Nat =>
          (d.1, if 0 < (domains.map (fun d => d.2)).sum
            then (d.2 : ℚ) / (((domains.map (fun d => d.2)).sum : Nat) : ℚ) * 100
            else 0)))
        = fun d : String × Nat => (0 : ℚ) := by
      funext d
      simp [h]
    rw [hfun]
    simp

/-- Claim C10: for every per-domain output-token distribution (distinct
domain names, as produced from the analyzer's domain dict), the balance
score only takes values in \x7b65, 80, 85, 90, 100\x7d, is always at least
65, and so the lower clamp to 0 is never binding. -/
theorem C10_balance_score (domains : List (String × Nat))
    (_h : (domains.map Prod.fst).Nodup) :
    _calculate_balance_score (domainPcts domains) ∈ ({65, 80, 85, 90, 100} : Set ℚ)
    ∧ 65 ≤ _calculate_balance_score (domainPcts domains) := by
  have hnn : ∀ p ∈ domainPcts domains, 0 ≤ p.2 := domainPcts_nonneg domains
  have hget := dictGetQ_nonneg (domainPcts domains) hnn
  have h6 := sum_dictGetQ_le
    ["coding", "automation", "data", "research", "communication", "meetings"]
    (domainPcts domains) (by decide) hnn
  have hle := domainPcts_sum_le domains
  simp only [List.map_cons, List.map_nil, List.sum_cons, List.sum_nil] at h6
  have key : _calculate_balance_score (domainPcts domains) = 65
      ∨ _calculate_balance_score (domainPcts domains) = 80
      ∨ _calculate_balance_score (domainPcts domains) = 85
      ∨ _calculate_balance_score (domainPcts domains) = 90
      ∨ _calculate_balance_score (domainPcts domains) = 100 := by
    unfold _calculate_balance_score
    simp only [List.map_cons, List.map_nil, List.sum_cons, List.sum_nil]
    set hv := dictGetQ (domainPcts domains) "coding"
      + (dictGetQ (domainPcts domains) "automation"
        + (dictGetQ (domainPcts domains) "data" + 0)) with hhv
    set sp := dictGetQ (domainPcts domains) "research"
      + (dictGetQ (domainPcts domains) "communication"
        + (dictGetQ (domainPcts domains) "meetings" + 0)) with hsp
    have hsum : hv + sp ≤ 100 := by
      rw [hhv, hsp]
      linarith
    have hv0 : 0 ≤ hv := by
      rw [hhv]
      have h1 := hget "coding"
      have h2 := hget "automation"
      have h3 := hget "data"
      linarith
    have sp0 : 0 ≤ sp := by
      rw [hsp]
      have h1 := hget "research"
      have h2 := hget "communication"
      have h3 := hget "meetings"
      linarith
    by_cases h1 : hv < 30
    · have h2 : ¬ 80 < hv := by linarith
      rw [if_pos h1, if_neg h2]
      by_cases h3 : 50 < sp
      · rw [if_pos h3]
        left
        norm_num
      · rw [if_neg h3]
        right
        left
        norm_num
    · rw [if_neg h1]
      by_cases h2 : 80 < hv
      · have h3 : ¬ 50 < sp := by linarith
        rw [if_pos h2, if_neg h3]
        right
        right
        right
        left
        norm_num
      · rw [if_neg h2]
        by_cases h3 : 50 < sp
        · rw [if_pos h3]
          right
          right
          left
          norm_num
        · rw [if_neg h3]
          right
          right
          right
          right
          norm_num
  constructor
  · rcases key with k | k | k | k | k <;> rw [k] <;>
      simp [Set.mem_insert_iff, Set.mem_singleton_iff]
  · rcases key with k | k | k | k | k <;> rw [k] <;> norm_num

/-- Witness for C10: a concrete two-domain distribution (10 percent
coding, 90 percent research) scores 65, inside the allowed set. -/
theorem C10_witness :
    _calculate_balance_score (domainPcts [("coding", 10), ("research", 90)])
      ∈ ({65, 80, 85, 90, 100} : Set ℚ)
    ∧ 65 ≤ _calculate_balance_score (domainPcts [("coding", 10), ("research", 90)]) :=
  C10_balance_score [("coding", 10), ("research", 90)] (by decide)

end ClaudeMonitor
